import Mathlib

/-!
Verification of the WebTiebaManager core against its specification.

The definitions below are a shallow embedding of the Python source:

* `src/db/interface.py` — `UpdateStatus` bitflags and `Database.check_and_update_cache`
  (the content-update cache classifier), `Database.save_items` conflict handling.
* `src/tieba/crawler.py` — the Spider's descend/skip decision and post-page
  pagination, and the Crawler's user-level persistence pass.
* `src/user/user.py` — `TiebaClient.delete`, `User.operate`, `User.operate_rule_set`
  and `User.operate_confirm`.
* `src/rule/operation.py` — `OperationGroup` with its `direct_operations` /
  `no_direct_operations` / `need_bawu` accessors.
* `src/process/process.py` — `Processer.process` whitelist/blacklist evaluation.
* `src/core/config.py` — `RuleLogic.evaluate_expression`.

Machine integers are modelled as `Nat` (pids, timestamps, reply counts and page
numbers are non-negative and nowhere near overflow in the source), database
tables as association lists keyed by primary key, and the moderator API as a
list of emitted `ModAction` values.
-/

namespace WTM

/-! ## UpdateStatus (src/db/interface.py, class UpdateStatus)

Python's `IntFlag` members are plain integers combined with bitwise or; the
truthiness test `st & GROUP` used by the Spider is `st &&& GROUP ≠ 0`. -/

def NEW_WITH_CHILD : Nat := 1
def NEW : Nat := 2
def UPDATED : Nat := 4
def UNCHANGED : Nat := 8

def IS_NEW : Nat := NEW ||| NEW_WITH_CHILD
def IS_STABLE : Nat := UNCHANGED ||| NEW
def HAS_CHANGES : Nat := UPDATED ||| NEW_WITH_CHILD

/-- Truthiness of `st & group` on an `IntFlag`: non-zero means true. -/
def hasFlag (st group : Nat) : Bool := st &&& group != 0

/-! ## Content items (src/typedef.py)

Only the fields read by the classifier are carried: a `Thread` has
`last_time` and `reply_num`, a `Post` has `reply_num` only, a `Comment` has
neither.  `getattr(content, "last_time", None)` / `getattr(content,
"reply_num", None)` become the two `Option`-valued projections. -/

inductive CrawlItem where
  | thread (pid : Nat) (last_time : Nat) (reply_num : Nat)
  | post (pid : Nat) (reply_num : Nat)
  | comment (pid : Nat)
deriving DecidableEq, Repr

def CrawlItem.pid : CrawlItem → Nat
  | .thread p _ _ => p
  | .post p _ => p
  | .comment p => p

/-- getattr(content, "last_time", None). -/
def CrawlItem.lastTimeAttr : CrawlItem → Option Nat
  | .thread _ lt _ => some lt
  | .post _ _ => none
  | .comment _ => none

/-- getattr(content, "reply_num", None). -/
def CrawlItem.replyNumAttr : CrawlItem → Option Nat
  | .thread _ _ rn => some rn
  | .post _ rn => some rn
  | .comment _ => none

/-! ## The content cache table (src/models/models.py, ContentModel)

Only the two marker columns enter the classifier; the table is an association
list keyed by the primary key `pid`. -/

structure CacheRow where
  last_time : Option Nat
  reply_num : Option Nat
deriving DecidableEq, Repr

abbrev CacheState := List (Nat × CacheRow)

/-- SELECT last_time, reply_num FROM content WHERE pid = ?. -/
def lookupRow (db : CacheState) (pid : Nat) : Option CacheRow :=
  (List.find? (fun r => r.1 == pid) db).map (fun r => r.2)

/-- UPDATE content SET last_time = ?, reply_num = ? WHERE pid = ? — this is a
plain UPDATE: a missing row is left missing (no insert happens). -/
def updateRows (db : CacheState) (pid : Nat) (lt rn : Option Nat) : CacheState :=
  db.map (fun r => if r.1 == pid then (r.1, CacheRow.mk lt rn) else r)

/-- INSERT ... ON CONFLICT (pid) DO NOTHING for one content row, as done by
`Database.save_items` with the default `on_conflict="ignore"`; the row stores
`getattr(content, "last_time", None)` and `getattr(content, "reply_num", None)`
(`ContentModel.from_content`). -/
def insertIgnoreContent (db : CacheState) (c : CrawlItem) : CacheState :=
  if (lookupRow db c.pid).isSome then db
  else db ++ [(c.pid, CacheRow.mk c.lastTimeAttr c.replyNumAttr)]

/-- Database.check_and_update_cache (src/db/interface.py:329-359): one
transaction reads the cached `(last_time, reply_num)` for `content.pid`,
issues the UPDATE of the markers, and classifies by variant. -/
def check_and_update_cache (db : CacheState) (c : CrawlItem) : Nat × CacheState :=
  let content_cache := lookupRow db c.pid
  let db2 := updateRows db c.pid c.lastTimeAttr c.replyNumAttr
  let updated :=
    match c with
    | .thread _ lt rn =>
        match content_cache with
        | none => if rn > 0 then NEW_WITH_CHILD else NEW
        | some row =>
            if (some lt, some rn) ≠ (row.last_time, row.reply_num) then UPDATED else UNCHANGED
    | .post _ rn =>
        match content_cache with
        | none => if rn > 4 then NEW_WITH_CHILD else NEW
        | some row =>
            if ((none : Option Nat), some rn) ≠ (row.last_time, row.reply_num) then UPDATED
            else UNCHANGED
    | .comment _ =>
        match content_cache with
        | none => NEW
        | some _ => UNCHANGED
  (updated, db2)

/-! Small sanity checks mirroring test/test_database.py::test_is_updated_post_and_comment. -/

example : (check_and_update_cache [] (.post 3001 4)).1 = NEW := by decide
example : (check_and_update_cache [] (.post 3002 5)).1 = NEW_WITH_CHILD := by decide
example :
    (check_and_update_cache [(3002, CacheRow.mk none (some 5))] (.post 3002 10)).1 = UPDATED := by
  decide
example : (check_and_update_cache [] (.comment 4001)).1 = NEW := by decide

lemma lookupRow_updateRows (db : CacheState) (pid : Nat) (lt rn : Option Nat) :
    lookupRow (updateRows db pid lt rn) pid =
      (lookupRow db pid).map (fun _ => CacheRow.mk lt rn) := by
  induction db with
  | nil => rfl
  | cons hd tl ih =>
      by_cases h : hd.1 = pid
      · simp [lookupRow, updateRows, List.find?, h]
      · have hb : (hd.1 == pid) = false := by simpa using h
        simp only [lookupRow, updateRows, List.map_cons, List.find?] at ih ⊢
        simp only [hb, if_neg (by simpa using h)]
        simpa [lookupRow, updateRows, hb] using ih

lemma hasFlag_miss_status (rn t : Nat) :
    hasFlag (if rn > t then NEW_WITH_CHILD else NEW) IS_NEW = true := by
  by_cases h : rn > t
  · rw [if_pos h]; decide
  · rw [if_neg h]; decide

/-- C1 counterexample: on an empty cache, `check_and_update_cache` issues an
UPDATE (not an UPSERT), so a first-sighting call leaves no record for the pid
and a second call on the same item with no external state change is again a
first sighting (`NEW_WITH_CHILD ∈ IS_NEW`), not `UNCHANGED`/`UPDATED`. -/
theorem C1_counterexample :
    (check_and_update_cache [] (.thread 100 1700000000 3)).1 = NEW_WITH_CHILD ∧
    lookupRow (check_and_update_cache [] (.thread 100 1700000000 3)).2 100 = none ∧
    (check_and_update_cache (check_and_update_cache [] (.thread 100 1700000000 3)).2
        (.thread 100 1700000000 3)).1 = NEW_WITH_CHILD ∧
    (check_and_update_cache (check_and_update_cache [] (.thread 100 1700000000 3)).2
        (.thread 100 1700000000 3)).1 ≠ UNCHANGED ∧
    (check_and_update_cache (check_and_update_cache [] (.thread 100 1700000000 3)).2
        (.thread 100 1700000000 3)).1 ≠ UPDATED := by
  decide

/-- C1 (amended): `check_and_update_cache` is one transactional round trip that
reads the cached `(last_time, reply_num)` for the item's pid and UPDATEs the
marker values of an existing row only — it inserts nothing on a cache miss
(rows are created separately by `save_items`).  Called twice in succession with
no external state change: on a cache miss both calls return a status in
`IS_NEW` and the cache still holds no record for the pid; on a cache hit the
first call returns `UPDATED` or `UNCHANGED` and the second returns
`UNCHANGED`. -/
theorem C1_classify_twice (db : CacheState) (c : CrawlItem) :
    (lookupRow db c.pid = none →
      hasFlag (check_and_update_cache db c).1 IS_NEW = true ∧
      lookupRow (check_and_update_cache db c).2 c.pid = none ∧
      hasFlag (check_and_update_cache (check_and_update_cache db c).2 c).1 IS_NEW = true) ∧
    (∀ row, lookupRow db c.pid = some row →
      ((check_and_update_cache db c).1 = UPDATED ∨ (check_and_update_cache db c).1 = UNCHANGED) ∧
      (check_and_update_cache (check_and_update_cache db c).2 c).1 = UNCHANGED) := by
  constructor
  · intro h
    have h2 : lookupRow (check_and_update_cache db c).2 c.pid = none := by
      simp [check_and_update_cache, lookupRow_updateRows, h]
    refine ⟨?_, h2, ?_⟩
    · cases c <;> simp only [check_and_update_cache, h] <;>
        first
          | exact hasFlag_miss_status _ _
          | decide
    · cases c <;> simp only [check_and_update_cache] at h2 ⊢ <;>
        simp only [CrawlItem.pid] at * <;> rw [h2] <;>
        first
          | exact hasFlag_miss_status _ _
          | decide
  · intro row h
    have h2 : lookupRow (check_and_update_cache db c).2 c.pid =
        some (CacheRow.mk c.lastTimeAttr c.replyNumAttr) := by
      simp [check_and_update_cache, lookupRow_updateRows, h]
    constructor
    · cases c <;> simp only [check_and_update_cache, h] <;>
        first
          | (split <;> simp)
          | simp
    · cases c <;> simp only [check_and_update_cache] at h2 ⊢ <;>
        simp only [CrawlItem.pid, CrawlItem.lastTimeAttr, CrawlItem.replyNumAttr] at * <;>
        rw [h2] <;> simp

/-- C1 witness: the hit branch of `C1_classify_twice`, applied at a concrete
thread whose markers moved, gives `UPDATED` then `UNCHANGED`; the miss branch
on the empty cache gives `IS_NEW` twice. -/
theorem C1_classify_twice_witness :
    ((check_and_update_cache [(5, CacheRow.mk (some 1) (some 2))] (.thread 5 9 9)).1 = UPDATED ∨
      (check_and_update_cache [(5, CacheRow.mk (some 1) (some 2))] (.thread 5 9 9)).1
        = UNCHANGED) ∧
    (check_and_update_cache
        (check_and_update_cache [(5, CacheRow.mk (some 1) (some 2))] (.thread 5 9 9)).2
        (.thread 5 9 9)).1 = UNCHANGED ∧
    hasFlag (check_and_update_cache [] (.post 7 2)).1 IS_NEW = true := by
  refine ⟨?_, ?_, ?_⟩
  · exact ((C1_classify_twice [(5, CacheRow.mk (some 1) (some 2))]
      (.thread 5 9 9)).2 (CacheRow.mk (some 1) (some 2)) (by decide)).1
  · exact ((C1_classify_twice [(5, CacheRow.mk (some 1) (some 2))]
      (.thread 5 9 9)).2 (CacheRow.mk (some 1) (some 2)) (by decide)).2
  · exact ((C1_classify_twice [] (.post 7 2)).1 (by decide)).1

lemma lookupRow_append_single (db : CacheState) (pid : Nat) (row : CacheRow)
    (h : lookupRow db pid = none) :
    lookupRow (db ++ [(pid, row)]) pid = some row := by
  induction db with
  | nil => simp [lookupRow]
  | cons hd tl ih =>
      by_cases hp : hd.1 = pid
      · simp [lookupRow, List.find?, hp] at h
      · have hb : (hd.1 == pid) = false := by simpa using hp
        simp only [lookupRow, List.cons_append, List.find?, hb] at h ⊢
        exact ih h

/-- A post's cache row is only ever written with `last_time = NULL`: the insert
path (`ContentModel.from_content` via `save_items`) stores
`getattr(post, "last_time", None) = None`, and the classifier's UPDATE writes
the same attribute.  This is the row invariant the post branch of the
classification table relies on. -/
lemma post_row_last_time_none (db : CacheState) (pid rn : Nat) :
    (lookupRow db pid = none →
      lookupRow (insertIgnoreContent db (.post pid rn)) pid = some (CacheRow.mk none (some rn))) ∧
    lookupRow (check_and_update_cache db (.post pid rn)).2 pid =
      (lookupRow db pid).map (fun _ => CacheRow.mk none (some rn)) := by
  constructor
  · intro h
    simpa [insertIgnoreContent, CrawlItem.pid, h] using
      lookupRow_append_single db pid (CacheRow.mk none (some rn)) h
  · simpa [check_and_update_cache, CrawlItem.pid, CrawlItem.lastTimeAttr,
      CrawlItem.replyNumAttr] using lookupRow_updateRows db pid none (some rn)

/-- C3: the classification table of `check_and_update_cache`.  On a cache miss
a thread is `NEW_WITH_CHILD` exactly when `reply_num > 0`, a post exactly when
`reply_num > 4` (so a post with `reply_num ≤ 4` and a thread with
`reply_num = 0` classify `NEW`), and a comment is `NEW`.  On a cache hit a
thread is `UPDATED` exactly when `(last_time, reply_num)` differs from the
cached pair, a post exactly when `reply_num` differs from the cached value
(post rows always cache `last_time = NULL`, see `post_row_last_time_none`),
and a comment is always `UNCHANGED`. -/
theorem C3_classification_table (db : CacheState) (pid lt rn : Nat) :
    (lookupRow db pid = none →
      (check_and_update_cache db (.thread pid lt rn)).1
          = (if 0 < rn then NEW_WITH_CHILD else NEW) ∧
      (check_and_update_cache db (.post pid rn)).1
          = (if 4 < rn then NEW_WITH_CHILD else NEW) ∧
      (check_and_update_cache db (.comment pid)).1 = NEW) ∧
    (∀ row, lookupRow db pid = some row →
      ((check_and_update_cache db (.thread pid lt rn)).1
          = (if (some lt, some rn) = (row.last_time, row.reply_num) then UNCHANGED
             else UPDATED)) ∧
      (row.last_time = none →
        (check_and_update_cache db (.post pid rn)).1
            = (if row.reply_num = some rn then UNCHANGED else UPDATED)) ∧
      (check_and_update_cache db (.comment pid)).1 = UNCHANGED) := by
  constructor
  · intro h
    refine ⟨?_, ?_, ?_⟩ <;> simp [check_and_update_cache, CrawlItem.pid, h]
  · intro row h
    refine ⟨?_, ?_, ?_⟩
    · simp only [check_and_update_cache, CrawlItem.pid, h]
      by_cases he : (some lt, some rn) = (row.last_time, row.reply_num)
      · simp [he]
      · simp [he]
    · intro hlt
      simp only [check_and_update_cache, CrawlItem.pid, h, hlt]
      by_cases he : row.reply_num = some rn
      · simp [he, hlt]
      · simp [he, hlt, Ne.symm he]
    · simp [check_and_update_cache, CrawlItem.pid, h]

/-- C3 witness: the table evaluated at concrete inputs — a post with
`reply_num = 4` first-sights as `NEW`, a thread with `reply_num = 0` as `NEW`,
and a cached post whose `reply_num` moved from 5 to 10 as `UPDATED`. -/
theorem C3_classification_table_witness :
    (check_and_update_cache [] (.post 3001 4)).1 = (if 4 < 4 then NEW_WITH_CHILD else NEW) ∧
    (check_and_update_cache [] (.thread 3000 77 0)).1 = (if 0 < 0 then NEW_WITH_CHILD else NEW) ∧
    (check_and_update_cache [(3002, CacheRow.mk none (some 5))] (.post 3002 10)).1
      = (if (some 5 : Option Nat) = some 10 then UNCHANGED else UPDATED) := by
  refine ⟨?_, ?_, ?_⟩
  · exact ((C3_classification_table [] 3001 0 4).1 (by decide)).2.1
  · exact ((C3_classification_table [] 3000 77 0).1 (by decide)).1
  · exact (((C3_classification_table [(3002, CacheRow.mk none (some 5))] 3002 0 10).2
      (CacheRow.mk none (some 5)) (by decide)).2.1 (by decide))

/-! ## Spider descend/skip decision (src/tieba/crawler.py)

`CrawlNeed` is the per-forum triple of layer flags; after classifying a thread
the Spider executes

    if updated & UpdateStatus.IS_STABLE or (not need.post and not need.comment):
        continue

(crawler.py:151) and otherwise descends into the thread's post pages. -/

structure CrawlNeed where
  thread : Bool
  post : Bool
  comment : Bool
deriving DecidableEq, Repr

/-- The `continue` condition of crawler.py:151: skip descending when the
classification is stable OR the caller wants neither posts nor comments. -/
def skipsDescent (st : Nat) (need : CrawlNeed) : Bool :=
  hasFlag st IS_STABLE || (!need.post && !need.comment)

/-- C2 counterexample: a thread classified `UNCHANGED` (which is in
`IS_STABLE`) is skipped even though the caller wants posts and comments — the
source combines the two clauses with `or`, not `and` as the claim states. -/
theorem C2_counterexample :
    skipsDescent UNCHANGED (CrawlNeed.mk false true true) = true ∧
    ¬(hasFlag UNCHANGED IS_STABLE = true ∧
      (CrawlNeed.mk false true true).post = false ∧
      (CrawlNeed.mk false true true).comment = false) := by
  decide

/-- C2 (amended): the Spider skips descending into a thread's posts when the
classification is in `IS_STABLE` **or** the caller wants neither posts nor
comments; equivalently, for each of the four classifier outcomes it descends
exactly when the status is in `HAS_CHANGES` (`UPDATED` or `NEW_WITH_CHILD`)
and the caller wants posts or comments. -/
theorem C2_skip_descend (st : Nat) (need : CrawlNeed)
    (h : st = NEW_WITH_CHILD ∨ st = NEW ∨ st = UPDATED ∨ st = UNCHANGED) :
    (skipsDescent st need
        = (hasFlag st IS_STABLE || (!need.post && !need.comment))) ∧
    (skipsDescent st need = false ↔
      (hasFlag st HAS_CHANGES = true ∧ (need.post = true ∨ need.comment = true))) := by
  obtain ⟨t, p, c⟩ := need
  rcases h with rfl | rfl | rfl | rfl <;> cases t <;> cases p <;> cases c <;> decide

/-- C2 witness: an `UPDATED` thread with post interest is descended into
(scenario 2 of the spec), and a `NEW_WITH_CHILD` thread with no sub-layer
interest is skipped. -/
theorem C2_skip_descend_witness :
    (skipsDescent UPDATED (CrawlNeed.mk false true true) = false ↔
      (hasFlag UPDATED HAS_CHANGES = true ∧
        ((CrawlNeed.mk false true true).post = true ∨
          (CrawlNeed.mk false true true).comment = true))) ∧
    skipsDescent NEW_WITH_CHILD (CrawlNeed.mk true false false)
      = (hasFlag NEW_WITH_CHILD IS_STABLE ||
          (!(CrawlNeed.mk true false false).post && !(CrawlNeed.mk true false false).comment)) := by
  constructor
  · exact (C2_skip_descend UPDATED (CrawlNeed.mk false true true)
      (Or.inr (Or.inr (Or.inl rfl)))).2
  · exact (C2_skip_descend NEW_WITH_CHILD (CrawlNeed.mk true false false) (Or.inl rfl)).1

/-! ## Post-page pagination (src/tieba/crawler.py:165-179)

After reading post-page 1 the Spider computes the remaining pages as

    pages = list(range(2, min(scan.post_page_forward + 1, total_page + 1)))
    if total_page < scan.post_page_forward + scan.post_page_backward:
        pages += list(range(len(pages) + 2, total_page + 1))
    else:
        pages += list(range(total_page,
                            max(total_page - scan.post_page_backward, scan.post_page_forward),
                            -1))

`pyRange a b` is Python's `range(a, b)`; a descending `range(a, b, -1)` is the
reverse of `range(b + 1, a + 1)`. -/

def pyRange (a b : Nat) : List Nat := List.range' a (b - a)

def pages_to_fetch (f b tp : Nat) : List Nat :=
  let pages := pyRange 2 (min (f + 1) (tp + 1))
  if tp < f + b then pages ++ pyRange (pages.length + 2) (tp + 1)
  else pages ++ (pyRange (max (tp - b) f + 1) (tp + 1)).reverse

lemma mem_pyRange (a b p : Nat) : p ∈ pyRange a b ↔ a ≤ p ∧ p < b := by
  unfold pyRange
  rw [List.mem_range'_1]
  omega

lemma length_pyRange (a b : Nat) : (pyRange a b).length = b - a := by
  simp [pyRange]

lemma nodup_pyRange (a b : Nat) : (pyRange a b).Nodup := List.nodup_range' a (b - a)

/-- C4: for a thread with `total_page` pages, the set of post pages fetched
after page 1 is exactly `{2, …, total_page}` (each once) when
`total_page < post_page_forward + post_page_backward`; otherwise it is the
forward window `{2, …, min(post_page_forward, total_page)}` followed by the
descending tail `total_page, …, total_page − post_page_backward + 1`, with no
page fetched twice. -/
theorem C4_pagination (f b tp : Nat) :
    (tp < f + b →
      (∀ p, p ∈ pages_to_fetch f b tp ↔ 2 ≤ p ∧ p ≤ tp) ∧
      (pages_to_fetch f b tp).Nodup) ∧
    (f + b ≤ tp →
      pages_to_fetch f b tp
          = pyRange 2 (min f tp + 1) ++ (pyRange (tp - b + 1) (tp + 1)).reverse ∧
      (∀ p, p ∈ pages_to_fetch f b tp ↔
        (2 ≤ p ∧ p ≤ min f tp) ∨ (tp - b + 1 ≤ p ∧ p ≤ tp)) ∧
      (pages_to_fetch f b tp).Nodup) := by
  constructor
  · intro h
    have hmem : ∀ p, p ∈ pages_to_fetch f b tp ↔ 2 ≤ p ∧ p ≤ tp := by
      intro p
      simp only [pages_to_fetch, if_pos h, List.mem_append, mem_pyRange, length_pyRange]
      omega
    refine ⟨hmem, ?_⟩
    simp only [pages_to_fetch, if_pos h]
    rw [List.nodup_append]
    refine ⟨nodup_pyRange _ _, nodup_pyRange _ _, ?_⟩
    intro p hp hq
    rw [mem_pyRange] at hp
    rw [mem_pyRange] at hq
    rw [length_pyRange] at hq
    omega
  · intro h
    have heq : pages_to_fetch f b tp
        = pyRange 2 (min f tp + 1) ++ (pyRange (tp - b + 1) (tp + 1)).reverse := by
      simp only [pages_to_fetch, if_neg (by omega : ¬tp < f + b)]
      have h1 : min (f + 1) (tp + 1) = min f tp + 1 := by omega
      have h2 : max (tp - b) f + 1 = tp - b + 1 := by omega
      rw [h1, h2]
    refine ⟨heq, ?_, ?_⟩
    · intro p
      rw [heq]
      simp only [List.mem_append, List.mem_reverse, mem_pyRange]
      omega
    · rw [heq, List.nodup_append]
      refine ⟨nodup_pyRange _ _, by rw [List.nodup_reverse]; exact nodup_pyRange _ _, ?_⟩
      intro p hp hq
      rw [mem_pyRange] at hp
      rw [List.mem_reverse, mem_pyRange] at hq
      omega

/-- C4 witness: with `forward = 2, backward = 2` a 3-page thread is read in
full after page 1 (`pages = [2, 3]`, no duplicates), and a 10-page thread gets
the forward window plus the descending tail `[10, 9]`. -/
theorem C4_pagination_witness :
    ((2 ∈ pages_to_fetch 2 2 3 ↔ 2 ≤ 2 ∧ 2 ≤ 3) ∧ (pages_to_fetch 2 2 3).Nodup) ∧
    (pages_to_fetch 2 2 10
        = pyRange 2 (min 2 10 + 1) ++ (pyRange (10 - 2 + 1) (10 + 1)).reverse ∧
      (pages_to_fetch 2 2 10).Nodup) := by
  refine ⟨⟨?_, ?_⟩, ?_, ?_⟩
  · exact ((C4_pagination 2 2 3).1 (by decide)).1 2
  · exact ((C4_pagination 2 2 3).1 (by decide)).2
  · exact ((C4_pagination 2 2 10).2 (by decide)).1
  · exact ((C4_pagination 2 2 10).2 (by decide)).2.2

/-! ## Moderator actions and the operation executor (src/user/user.py,
src/rule/operation.py)

`ModAction` records the concrete moderator API calls a code path emits. -/

inductive CType where
  | thread
  | post
  | comment
deriving DecidableEq, Repr

structure OpContent where
  fname : String
  tid : Nat
  pid : Nat
  uid : Nat
  ctype : CType
deriving DecidableEq, Repr

inductive ModAction where
  | delThread (fname : String) (tid : Nat)
  | delPost (fname : String) (tid : Nat) (pid : Nat)
  | blockUser (fname : String) (uid : Nat) (day : Nat) (reason : String)
deriving DecidableEq, Repr

/-- TiebaClient.delete (src/user/user.py:106-121): `content.type == "thread"`
dispatches to `del_thread(fname, tid)`, anything else to
`del_post(fname, tid, pid)`.  The method takes no other argument that could
force a thread deletion for a non-thread content. -/
def clientDelete (c : OpContent) : ModAction :=
  if c.ctype = .thread then .delThread c.fname c.tid else .delPost c.fname c.tid c.pid

/-- TiebaClient.block (src/user/user.py:123-135). -/
def clientBlock (c : OpContent) (day : Nat) (reason : String) : ModAction :=
  .blockUser c.fname c.uid day reason

/-- Shorthand operation tokens (rule/operation.py STR_OPERATION). -/
inductive StrOperation where
  | ignoreStr
  | deleteStr
  | blockStr
  | deleteAndBlockStr
deriving DecidableEq, Repr

/-- List-form operation descriptors: `Delete {delete_thread_if_author}` and
`Block {day, reason}` from rule/operation.py, each with its `direct` flag;
`unknownSpec` stands for an unregistered type, which `User.operate` logs and
skips. -/
inductive OpSpec where
  | deleteSpec (delete_thread_if_author : Bool) (direct : Bool)
  | blockSpec (day : Option Nat) (reason : String) (direct : Bool)
  | unknownSpec (direct : Bool)
deriving DecidableEq, Repr

def OpSpec.direct : OpSpec → Bool
  | .deleteSpec _ d => d
  | .blockSpec _ _ d => d
  | .unknownSpec d => d

/-- The `_need_bawu` class marker: `True` on both `Delete` and `Block`. -/
def OpSpec.need_bawu : OpSpec → Bool
  | .deleteSpec _ _ => true
  | .blockSpec _ _ _ => true
  | .unknownSpec _ => false

/-- OperationGroup (rule/operation.py:64-101): either a shorthand token or a
list of descriptors.  Serialization round-trips through
`OperationGroup.serialize` / `Operations.deserialize`, which preserve exactly
the fields modelled here, so it is the identity on this embedding. -/
inductive OperationGroupE where
  | strForm (s : StrOperation)
  | listForm (ops : List OpSpec)
deriving DecidableEq, Repr

/-- OperationGroup.need_bawu (rule/operation.py:96-101). -/
def OperationGroupE.need_bawu : OperationGroupE → Bool
  | .strForm s =>
      match s with
      | .ignoreStr => false
      | _ => true
  | .listForm l => l.any (fun op => op.need_bawu)

/-- OperationGroup.direct_operations (rule/operation.py:74-82): `None` for the
shorthand form or when no operation is flagged direct. -/
def OperationGroupE.direct_operations : OperationGroupE → Option OperationGroupE
  | .strForm _ => none
  | .listForm l =>
      let ds := l.filter (fun op => op.direct)
      if ds.isEmpty then none else some (.listForm ds)

/-- OperationGroup.no_direct_operations (rule/operation.py:84-90): always
returns a group — possibly one whose operation list is empty. -/
def OperationGroupE.no_direct_operations : OperationGroupE → OperationGroupE
  | .strForm s => .strForm s
  | .listForm l => .listForm (l.filter (fun op => !op.direct))

/-- Python `options.day or forum.block_day`: `None` and `0` both fall back. -/
def orDay (day : Option Nat) (dft : Nat) : Nat :=
  match day with
  | none => dft
  | some d => if d = 0 then dft else d

/-- Python `options.reason or forum.block_reason`: empty string falls back. -/
def orReason (reason dft : String) : String := if reason = "" then dft else reason

/-- User.operate (src/user/user.py:253-291).  `is_thread_author` is the value
the external Tieba Info helper (`TiebaInfo.get_if_thread_author`) reports for
this content.  Note the delete branch (user.py:277-283): when
`delete_thread_if_author` is set and the helper reports the author is the
thread's OP, the code runs `await self.client.delete(obj.content); continue` —
the very same call as the fall-through branch. -/
def operate (c : OpContent) (block_day : Nat) (block_reason : String)
    (is_thread_author : Bool) : OperationGroupE → List ModAction
  | .strForm .ignoreStr => []
  | .strForm .deleteStr => [clientDelete c]
  | .strForm .blockStr => [clientBlock c block_day block_reason]
  | .strForm .deleteAndBlockStr => [clientDelete c, clientBlock c block_day block_reason]
  | .listForm l =>
      l.flatMap (fun op =>
        match op with
        | .deleteSpec dtia _ =>
            if dtia && is_thread_author then [clientDelete c] else [clientDelete c]
        | .blockSpec day reason _ =>
            [clientBlock c (orDay day block_day) (orReason reason block_reason)]
        | .unknownSpec _ => [])

/-- C5 evaluated at the failing input: a list-form delete with
`delete_thread_if_author = true` on a post whose author IS the thread's OP
emits `del_post(fname, tid, pid)` — only the reply is deleted, never
`del_thread(fname, tid)`.  Both branches of user.py:277-283 call
`client.delete(content)`, which dispatches on `content.type`; the variant in
rule/operation.py:182 (`Delete.operate`) passes `del_thread=True` to
`TiebaClient.delete`, a parameter that method does not accept. -/
theorem C5_delete_thread_if_author_failing :
    operate (OpContent.mk "f" 7 9 42 .post) 1 "" true
        (.listForm [.deleteSpec true false]) = [ModAction.delPost "f" 7 9] ∧
    (ModAction.delPost "f" 7 9 ≠ ModAction.delThread "f" 7) ∧
    operate (OpContent.mk "f" 7 9 42 .post) 1 "" false
        (.listForm [.deleteSpec true false]) = [ModAction.delPost "f" 7 9] := by
  constructor
  · rfl
  · exact ⟨by simp, by rfl⟩

/-! ## Confirmation store (src/user/confirm.py key-value contract via
src/util/cache.py ExpireCache: `set`/`get`/`delete` keyed by the content pid)

`StoredConfirm` carries the snapshotted content, the `data` bag (abstracted to
the one fact the built-in operations snapshot, `is_thread_author`) and the
serialized operation group.  TTL expiry is not modelled: the claims below make
no statement about time. -/

structure StoredConfirm where
  content : OpContent
  is_thread_author : Bool
  operations : OperationGroupE
deriving DecidableEq, Repr

abbrev ConfirmStore := List (Nat × StoredConfirm)

def confirmGet (store : ConfirmStore) (pid : Nat) : Option StoredConfirm :=
  (List.find? (fun r => r.1 == pid) store).map (fun r => r.2)

def confirmDelete (store : ConfirmStore) (pid : Nat) : ConfirmStore :=
  store.filter (fun r => r.1 != pid)

def confirmSet (store : ConfirmStore) (pid : Nat) (cd : StoredConfirm) : ConfirmStore :=
  (pid, cd) :: confirmDelete store pid

lemma confirmGet_confirmDelete (store : ConfirmStore) (pid : Nat) :
    confirmGet (confirmDelete store pid) pid = none := by
  have hall : ∀ r ∈ confirmDelete store pid, (r.1 == pid) = false := by
    intro r hr
    have hp := List.of_mem_filter hr
    simpa using hp
  simp only [confirmGet]
  rw [List.find?_eq_none.mpr]
  · rfl
  · intro x hx
    simp [hall x hx]

inductive ConfirmAction where
  | execute
  | ignoreEntry
deriving DecidableEq, Repr

/-- Outcomes of `User.operate_confirm`: `notFound` is the logged `return
False` on a missing pid, `invalidState` the raised `ValueError("无效的账号
状态")`, and `done` the successful path together with the moderator calls it
ran. -/
inductive ConfirmOutcome where
  | notFound
  | invalidState
  | done (actions : List ModAction)
deriving DecidableEq, Repr

/-- User.operate_confirm (src/user/user.py:327-363) called with a pid:
look the entry up (missing → not-found); `ignore` deletes the entry;
`execute` deserializes the stored operations, fails with an invalid-state
error when the group needs moderator rights and the client is not `SUCCESS`
(leaving the store untouched, before running anything), and otherwise runs
the group and then deletes the entry (keyed, as in the source, by
`confirm.content.pid`). -/
def operate_confirm (store : ConfirmStore) (client_success : Bool) (block_day : Nat)
    (block_reason : String) (pid : Nat) (action : ConfirmAction) :
    ConfirmOutcome × ConfirmStore :=
  match confirmGet store pid with
  | none => (.notFound, store)
  | some cd =>
      match action with
      | .ignoreEntry => (.done [], confirmDelete store cd.content.pid)
      | .execute =>
          if cd.operations.need_bawu && !client_success then (.invalidState, store)
          else
            (.done (operate cd.content block_day block_reason cd.is_thread_author cd.operations),
              confirmDelete store cd.content.pid)

/-- C6: a confirmation entry is executable at most once.  When an entry is
stored under its content's pid and the operation group either needs no
moderator rights or the client is authenticated, `execute` runs exactly the
stored group and removes the entry, so any later `execute` or `ignore` on the
same pid reports not-found.  When the group requires moderator rights and the
client is not in the `SUCCESS` state, `execute` fails with the invalid-state
error before running any operation and the store is unchanged. -/
theorem C6_confirm_at_most_once (store : ConfirmStore) (client_success : Bool)
    (bd : Nat) (br : String) (pid : Nat) :
    (∀ cd, confirmGet store pid = some cd → cd.content.pid = pid →
      (cd.operations.need_bawu = false ∨ client_success = true) →
      operate_confirm store client_success bd br pid .execute
          = (.done (operate cd.content bd br cd.is_thread_author cd.operations),
             confirmDelete store pid) ∧
      confirmGet (operate_confirm store client_success bd br pid .execute).2 pid = none ∧
      (operate_confirm (operate_confirm store client_success bd br pid .execute).2
          client_success bd br pid .execute).1 = .notFound ∧
      (operate_confirm (operate_confirm store client_success bd br pid .execute).2
          client_success bd br pid .ignoreEntry).1 = .notFound) ∧
    (∀ cd, confirmGet store pid = some cd →
      cd.operations.need_bawu = true → client_success = false →
      operate_confirm store client_success bd br pid .execute = (.invalidState, store)) := by
  constructor
  · intro cd h hpid hok
    have hcond : (cd.operations.need_bawu && !client_success) = false := by
      rcases hok with h1 | h1 <;> simp [h1]
    have hrun : operate_confirm store client_success bd br pid .execute
        = (.done (operate cd.content bd br cd.is_thread_author cd.operations),
           confirmDelete store pid) := by
      simp [operate_confirm, h, hcond, hpid]
    have hgone : confirmGet (operate_confirm store client_success bd br pid .execute).2 pid
        = none := by
      rw [hrun]
      exact confirmGet_confirmDelete store pid
    have hdel : confirmGet (confirmDelete store pid) pid = none :=
      confirmGet_confirmDelete store pid
    refine ⟨hrun, hgone, ?_, ?_⟩ <;> rw [hrun] <;> simp [operate_confirm, hdel]
  · intro cd h hbawu hfail
    simp [operate_confirm, h, hbawu, hfail]

/-- C6 witness: a stored entry whose group is the shorthand `delete` (which
needs moderator rights).  With an authenticated client, `execute` runs the
delete and empties the store, and the two follow-up calls report not-found;
with an unauthenticated client the same entry yields the invalid-state error
and survives. -/
theorem C6_confirm_at_most_once_witness :
    operate_confirm [(9, StoredConfirm.mk (OpContent.mk "f" 3 9 42 .post) false
          (.strForm .deleteStr))] true 1 "" 9 .execute
      = (.done [ModAction.delPost "f" 3 9], []) ∧
    (operate_confirm
        (operate_confirm [(9, StoredConfirm.mk (OpContent.mk "f" 3 9 42 .post) false
            (.strForm .deleteStr))] true 1 "" 9 .execute).2
        true 1 "" 9 .execute).1 = .notFound ∧
    operate_confirm [(9, StoredConfirm.mk (OpContent.mk "f" 3 9 42 .post) false
          (.strForm .deleteStr))] false 1 "" 9 .execute
      = (.invalidState,
         [(9, StoredConfirm.mk (OpContent.mk "f" 3 9 42 .post) false (.strForm .deleteStr))]) := by
  refine ⟨?_, ?_, ?_⟩
  · exact ((C6_confirm_at_most_once [(9, StoredConfirm.mk (OpContent.mk "f" 3 9 42 .post) false
      (.strForm .deleteStr))] true 1 "" 9).1 (StoredConfirm.mk (OpContent.mk "f" 3 9 42 .post) false
      (.strForm .deleteStr)) (by decide) (by decide) (Or.inr rfl)).1
  · exact ((C6_confirm_at_most_once [(9, StoredConfirm.mk (OpContent.mk "f" 3 9 42 .post) false
      (.strForm .deleteStr))] true 1 "" 9).1 (StoredConfirm.mk (OpContent.mk "f" 3 9 42 .post) false
      (.strForm .deleteStr)) (by decide) (by decide) (Or.inr rfl)).2.2.1
  · exact ((C6_confirm_at_most_once [(9, StoredConfirm.mk (OpContent.mk "f" 3 9 42 .post) false
      (.strForm .deleteStr))] false 1 "" 9).2 (StoredConfirm.mk (OpContent.mk "f" 3 9 42 .post) false
      (.strForm .deleteStr)) (by decide) (by decide) rfl)

/-- User.operate_rule_set (src/user/user.py:293-325).  In confirm mode
(`mandatory_confirm or manual_confirm`) the direct subset is executed
immediately when present, and then the non-direct remainder group is enqueued
under the content's pid.  The Python guard `if og:` tests the default object
truthiness of `OperationGroup`, which defines neither `__bool__` nor
`__len__` — it is always true, so the enqueue happens even when the remainder
list is empty.  Outside confirm mode the whole group runs at once. -/
def operate_rule_set (c : OpContent) (is_thread_author : Bool) (block_day : Nat)
    (block_reason : String) (mandatory_confirm manual_confirm : Bool)
    (ops : OperationGroupE) (store : ConfirmStore) : List ModAction × ConfirmStore :=
  if mandatory_confirm || manual_confirm then
    let executed :=
      match ops.direct_operations with
      | some og => operate c block_day block_reason is_thread_author og
      | none => []
    let og := ops.no_direct_operations
    (executed, confirmSet store c.pid (StoredConfirm.mk c is_thread_author og))
  else
    (operate c block_day block_reason is_thread_author ops, store)

/-- C10: when confirmation is required and the list-form group consists solely
of operations flagged `direct`, the direct operations (i.e. the whole list)
are executed immediately, and a confirmation entry whose remaining operation
list is empty is nevertheless enqueued under the content's pid — the
non-direct remainder group is always treated as present. -/
theorem C10_all_direct_enqueues_empty (c : OpContent) (author : Bool) (bd : Nat)
    (br : String) (mandatory manual : Bool) (l : List OpSpec) (store : ConfirmStore)
    (hconfirm : (mandatory || manual) = true) (hne : l ≠ [])
    (hdirect : ∀ op ∈ l, op.direct = true) :
    (operate_rule_set c author bd br mandatory manual (.listForm l) store).1
        = operate c bd br author (.listForm l) ∧
    confirmGet (operate_rule_set c author bd br mandatory manual (.listForm l) store).2 c.pid
        = some (StoredConfirm.mk c author (.listForm [])) := by
  have hfilter : l.filter (fun op => op.direct) = l :=
    List.filter_eq_self.mpr (by intro a ha; simpa using hdirect a ha)
  have hempty : (l.filter (fun op => op.direct)).isEmpty = false := by
    rw [hfilter]
    cases l with
    | nil => exact absurd rfl hne
    | cons hd tl => rfl
  have hnone : l.filter (fun op => !op.direct) = [] := by
    rw [List.filter_eq_nil_iff]
    intro a ha
    simp [hdirect a ha]
  constructor
  · simp [operate_rule_set, hconfirm, OperationGroupE.direct_operations, hempty, hfilter, hne]
  · simp [operate_rule_set, hconfirm, OperationGroupE.no_direct_operations, hnone,
      confirmSet, confirmGet, List.find?]

/-- C10 witness: a one-element group containing a direct block operation.
The block runs immediately (with its own `day = 10` option) and an empty
confirmation entry is enqueued under pid 9. -/
theorem C10_all_direct_enqueues_empty_witness :
    (operate_rule_set (OpContent.mk "f" 3 9 42 .post) false 1 "" false true
        (.listForm [.blockSpec (some 10) "" true]) []).1
      = operate (OpContent.mk "f" 3 9 42 .post) 1 "" false
          (.listForm [.blockSpec (some 10) "" true]) ∧
    confirmGet (operate_rule_set (OpContent.mk "f" 3 9 42 .post) false 1 "" false true
        (.listForm [.blockSpec (some 10) "" true]) []).2 9
      = some (StoredConfirm.mk (OpContent.mk "f" 3 9 42 .post) false (.listForm [])) := by
  exact C10_all_direct_enqueues_empty (OpContent.mk "f" 3 9 42 .post) false 1 "" false true
    [.blockSpec (some 10) "" true] [] rfl (by decide) (by decide)

/-! ## Processer (src/process/process.py)

A rule is summarized by its name, whitelist flag, the outcome of
`await rule.check(obj)` on the dispatched content, and its
`force_record_context` flag; `Processer.__init__` splits the (valid) rules
into whitelist and blacklist groups preserving configured order. -/

structure PRule where
  name : String
  whitelist : Bool
  check_result : Bool
  force_record_context : Bool
deriving DecidableEq, Repr

structure ProcUserConfig where
  fname : String
  thread : Bool
  post : Bool
  comment : Bool
  enable : Bool
  fast_process : Bool
  record_all_context : Bool
deriving DecidableEq, Repr

structure ProcContent where
  fname : String
  ctype : CType
deriving DecidableEq, Repr

def layerFlag (cfg : ProcUserConfig) : CType → Bool
  | .thread => cfg.thread
  | .post => cfg.post
  | .comment => cfg.comment

/-- The reject test of process.py:46-51: wrong forum, disabled layer, or
disabled user. -/
def gateRejects (cfg : ProcUserConfig) (c : ProcContent) : Bool :=
  (c.fname != cfg.fname) || !layerFlag cfg c.ctype || !cfg.enable

/-- The `(result_rule, is_whitelist)` columns of the ProcessLog row written by
`Processer.resolve` (process.py:139-147). -/
structure ProcessLogRow where
  result_rule : Option String
  is_whitelist : Option Bool
deriving DecidableEq, Repr

/-- The blacklist loop of process.py:68-81: with `fast_process` return at the
first match, otherwise keep evaluating and remember the first match as
`valid_rule`. -/
def blacklistLoop (fast : Bool) (valid : Option PRule) : List PRule → Option PRule
  | [] => valid
  | r :: rest =>
      if r.check_result then
        if fast then some r
        else blacklistLoop fast (if valid.isSome then valid else some r) rest
      else blacklistLoop fast valid rest

/-- Processer.process (src/process/process.py:45-81): gate, then whitelist
rules in configured order (first match resolves with that rule and returns
no rule), then the blacklist loop, resolving once with the chosen rule or
`None`. -/
def Processer.process (cfg : ProcUserConfig) (rules : List PRule) (c : ProcContent) :
    Option PRule × Option ProcessLogRow :=
  if gateRejects cfg c then (none, none)
  else
    let whitelist_rules := rules.filter (fun r => r.whitelist)
    let black_rules := rules.filter (fun r => !r.whitelist)
    match whitelist_rules.find? (fun r => r.check_result) with
    | some w => (none, some (ProcessLogRow.mk (some w.name) (some w.whitelist)))
    | none =>
        let valid_rule := blacklistLoop cfg.fast_process none black_rules
        (valid_rule,
          some (ProcessLogRow.mk (valid_rule.map (fun r => r.name))
            (valid_rule.map (fun r => r.whitelist))))

lemma blacklistLoop_some (l : List PRule) (v : PRule) :
    blacklistLoop false (some v) l = some v := by
  induction l with
  | nil => rfl
  | cons r rest ih => by_cases hm : r.check_result <;> simp [blacklistLoop, hm, ih]

lemma blacklistLoop_none (fast : Bool) (l : List PRule) :
    blacklistLoop fast none l = l.find? (fun r => r.check_result) := by
  induction l with
  | nil => rfl
  | cons r rest ih =>
      by_cases hm : r.check_result
      · cases fast
        · simp [blacklistLoop, hm, List.find?, blacklistLoop_some]
        · simp [blacklistLoop, hm, List.find?]
      · have hm2 : r.check_result = false := by simpa using hm
        simp [blacklistLoop, hm2, List.find?, ih]

/-- C7: for a content passing the forum/layer/enabled gate, if some whitelist
rule matches (the first in configured order), `Processer.process` returns no
rule and the process log records that rule's name with `is_whitelist = true`;
otherwise, when some blacklist rule matches, the single log row records
exactly one `result_rule` — the first matching blacklist rule in configured
order (with `fast_process` the loop stops there; without it the loop still
keeps the first match as `valid_rule`). -/
theorem C7_whitelist_precedence (cfg : ProcUserConfig) (rules : List PRule) (c : ProcContent)
    (hgate : gateRejects cfg c = false) :
    (∀ w, (rules.filter (fun r => r.whitelist)).find? (fun r => r.check_result) = some w →
      Processer.process cfg rules c
          = (none, some (ProcessLogRow.mk (some w.name) (some true)))) ∧
    ((rules.filter (fun r => r.whitelist)).find? (fun r => r.check_result) = none →
      ∀ b, (rules.filter (fun r => !r.whitelist)).find? (fun r => r.check_result) = some b →
        Processer.process cfg rules c
            = (some b, some (ProcessLogRow.mk (some b.name) (some b.whitelist)))) := by
  constructor
  · intro w hw
    have hwl : w.whitelist = true := by
      have hmem := List.mem_of_find?_eq_some hw
      simpa using List.of_mem_filter hmem
    simp [Processer.process, hgate, hw, hwl]
  · intro hnone b hb
    simp [Processer.process, hgate, hnone, blacklistLoop_none, hb]

/-- C7 witness: scenario 3 of the spec — a matching whitelist rule W ahead of
a matching blacklist rule B yields no rule and a `(result_rule=W,
is_whitelist=true)` log; without W, B is returned and recorded. -/
theorem C7_whitelist_precedence_witness :
    Processer.process (ProcUserConfig.mk "f1" true true true true true false)
        [PRule.mk "W" true true false, PRule.mk "B" false true false]
        (ProcContent.mk "f1" .post)
      = (none, some (ProcessLogRow.mk (some "W") (some true))) ∧
    Processer.process (ProcUserConfig.mk "f1" true true true true true false)
        [PRule.mk "B" false true false]
        (ProcContent.mk "f1" .post)
      = (some (PRule.mk "B" false true false),
         some (ProcessLogRow.mk (some "B") (some false))) := by
  constructor
  · exact (C7_whitelist_precedence (ProcUserConfig.mk "f1" true true true true true false)
      [PRule.mk "W" true true false, PRule.mk "B" false true false]
      (ProcContent.mk "f1" .post) (by decide)).1 (PRule.mk "W" true true false) (by decide)
  · exact (C7_whitelist_precedence (ProcUserConfig.mk "f1" true true true true true false)
      [PRule.mk "B" false true false]
      (ProcContent.mk "f1" .post) (by decide)).2 (by decide) (PRule.mk "B" false true false)
      (by decide)

/-! ## RuleLogic.evaluate_expression (src/core/config.py:195-234)

The validated expression AST (`validate_expression`) allows only `and`, `or`,
`not` and non-negative integer constants (condition indices); Python's n-ary
`BoolOp` is `all`/`any` over its operands, i.e. the fold of the binary
connective modelled here. -/

inductive LogicExpr where
  | cond (idx : Nat)
  | landE (a b : LogicExpr)
  | lorE (a b : LogicExpr)
  | lnotE (a : LogicExpr)
deriving DecidableEq, Repr

/-- `_eval` (config.py:204-232) with `results` the partial map of condition
outcomes; an index missing from `results` evaluates to `False`
(config.py:223-225). -/
def evaluate_expression (results : Nat → Option Bool) : LogicExpr → Bool
  | .cond i => (results i).getD false
  | .landE a b => evaluate_expression results a && evaluate_expression results b
  | .lorE a b => evaluate_expression results a || evaluate_expression results b
  | .lnotE a => !evaluate_expression results a

/-- `results2` assigns everything `results` assigns, plus possibly more. -/
def extendsAssignment (results results2 : Nat → Option Bool) : Prop :=
  ∀ i b, results i = some b → results2 i = some b

/-- Expressions that never use `not`. -/
def negationFree : LogicExpr → Bool
  | .cond _ => true
  | .landE a b => negationFree a && negationFree b
  | .lorE a b => negationFree a && negationFree b
  | .lnotE _ => false

def emptyAssign : Nat → Option Bool := fun _ => none

def allTrueAssign : Nat → Option Bool := fun _ => some true

/-- C8 counterexample: the expression `not 0` evaluates to true on the empty
partial assignment (unknown ⇒ `False`, so `not` flips it to true) but to
false on the extension assigning condition 0 the value true — early-true is
not definite truth once `not` is allowed. -/
theorem C8_counterexample :
    evaluate_expression emptyAssign (.lnotE (.cond 0)) = true ∧
    evaluate_expression allTrueAssign (.lnotE (.cond 0)) = false ∧
    extendsAssignment emptyAssign allTrueAssign := by
  refine ⟨rfl, rfl, ?_⟩
  intro i b h
  exact absurd h (by simp [emptyAssign])

/-- C8 (amended): for negation-free expressions (over `and`/`or` and integer
condition indices only), `evaluate_expression` is monotone in the partial
assignment: if it returns true with unknown indices treated as false, it
returns true on every extension of the assignment.  With `not` in the
expression this fails (see the counterexample). -/
theorem C8_early_true_monotone (e : LogicExpr) (results results2 : Nat → Option Bool)
    (hext : extendsAssignment results results2) (hnf : negationFree e = true) :
    evaluate_expression results e = true → evaluate_expression results2 e = true := by
  induction e with
  | cond i =>
      intro h
      simp only [evaluate_expression] at h ⊢
      cases hr : results i with
      | none => rw [hr] at h; simp at h
      | some b =>
          rw [hr] at h
          simp only [Option.getD_some] at h
          rw [hext i b hr, h]
          rfl
  | landE a b iha ihb =>
      intro h
      simp only [negationFree, Bool.and_eq_true] at hnf
      simp only [evaluate_expression, Bool.and_eq_true] at h ⊢
      exact ⟨iha hnf.1 h.1, ihb hnf.2 h.2⟩
  | lorE a b iha ihb =>
      intro h
      simp only [negationFree, Bool.and_eq_true] at hnf
      simp only [evaluate_expression, Bool.or_eq_true] at h ⊢
      rcases h with h | h
      · exact Or.inl (iha hnf.1 h)
      · exact Or.inr (ihb hnf.2 h)
  | lnotE a iha =>
      intro h
      simp [negationFree] at hnf

def partialAssignC2 : Nat → Option Bool := fun i => if i = 2 then some true else none

def fullAssignC2 : Nat → Option Bool := fun i => if i = 2 then some true else some false

/-- C8 witness: scenario 5 of the spec — `(0 and 1) or 2` with only condition
2 known (and true) evaluates true, and stays true under the extension that
settles conditions 0 and 1 to false. -/
theorem C8_early_true_monotone_witness :
    evaluate_expression partialAssignC2 (.lorE (.landE (.cond 0) (.cond 1)) (.cond 2)) = true ∧
    evaluate_expression fullAssignC2 (.lorE (.landE (.cond 0) (.cond 1)) (.cond 2)) = true := by
  refine ⟨rfl, ?_⟩
  refine C8_early_true_monotone (.lorE (.landE (.cond 0) (.cond 1)) (.cond 2))
    partialAssignC2 fullAssignC2 ?_ rfl rfl
  intro i b h
  by_cases hi : i = 2
  · subst hi
    simpa [partialAssignC2, fullAssignC2] using h
  · exact absurd h (by simp [partialAssignC2, hi])

/-! ## Crawler user-level persistence (src/tieba/crawler.py:292-339 together
with src/db/interface.py `Database.save_items`) -/

structure UserLevelRow where
  user_id : Nat
  fname : String
  level : Nat
deriving DecidableEq, Repr

abbrev LevelTable := List UserLevelRow

def lookupLevel (table : LevelTable) (uid : Nat) (fname : String) : Option Nat :=
  (table.find? (fun r => r.user_id == uid && r.fname == fname)).map (fun r => r.level)

/-- `Database.save_items(need_update_levels)` at crawler.py:339 passes no
`on_conflict`, so the DEFAULT `"ignore"` applies: INSERT ... ON CONFLICT
(user_id, fname) DO NOTHING — a row whose primary key already exists is left
untouched. -/
def saveItemsIgnoreLevels (table : LevelTable) (rows : List UserLevelRow) : LevelTable :=
  rows.foldl
    (fun t r => if (lookupLevel t r.user_id r.fname).isSome then t else t ++ [r]) table

/-- The per-forum `user_levels` dict of crawler.py:297-309: the first sighting
of a user in the pass stores `UserLevelModel.from_content`, repeats keep the
maximum observed level.  `obs` is the stream of `(author_id, level)` pairs of
the contents yielded for this forum. -/
def buildUserLevels (fname : String) (obs : List (Nat × Nat)) : List UserLevelRow :=
  obs.foldl
    (fun acc o =>
      match acc.find? (fun r => r.user_id == o.1) with
      | some _ =>
          acc.map (fun r =>
            if r.user_id == o.1 then UserLevelRow.mk r.user_id r.fname (max r.level o.2) else r)
      | none => acc ++ [UserLevelRow.mk o.1 fname o.2])
    []

/-- One forum's level bookkeeping (crawler.py:317-339): query the existing
rows, keep a model when its row is absent or the newly observed level is
strictly higher (`need_update_levels`), then save that list — with the
default `ignore` conflict policy. -/
def levelPass (table : LevelTable) (fname : String) (obs : List (Nat × Nat)) : LevelTable :=
  let user_levels := buildUserLevels fname obs
  let need_update_levels := user_levels.filter (fun ulm =>
    match lookupLevel table ulm.user_id ulm.fname with
    | some lv => ulm.level > lv
    | none => true)
  saveItemsIgnoreLevels table need_update_levels

/-- C9 evaluated at the failing input: with a stored `user_level` row
`(user 1, forum "f", level 3)` and a crawl pass observing the same user at
level 5, the code filters the model into `need_update_levels` (5 > 3) but
then saves it with `ON CONFLICT DO NOTHING`, so the stored level remains 3 —
the strictly-higher observation is never written.  Creation of an absent row
does work (second conjunct). -/
theorem C9_level_never_updated :
    lookupLevel (levelPass [UserLevelRow.mk 1 "f" 3] "f" [(1, 5)]) 1 "f" = some 3 ∧
    lookupLevel (levelPass [] "f" [(1, 5)]) 1 "f" = some 5 ∧
    5 > 3 := by
  decide
